import Mathlib

set_option maxRecDepth 8192

/-!
Verification of the Agentic Knowledge Workspace backend against its
natural-language specification.  The Python source under
`backend/app` is shallowly embedded: pure helpers become Lean
functions, request handlers become functions from their inputs (and the
data the database would return) to explicit outcome values, and scores
are modelled as rationals.  External libraries (the Fernet cipher, the
JSON and base64 codecs) are modelled from their documented contracts and
are marked as such in their doc comments.
-/

/-! ## Python string primitives

Helpers mirroring the Python string operations used by the answer engine
(`str.lower`, `str.strip`, `str.split`, substring containment via `in`,
and the anchored regular expressions of `_is_conversational_query`).
Strings are handled at the character-list level. -/

/-- Whitespace characters of the Python `str.strip`/`str.split` and of the
regex class `\s` (ASCII range). -/
def isWs (c : Char) : Bool :=
  c = ' ' || c = '\t' || c = '\n' || c = '\u000B' || c = '\u000C' || c = '\r'

/-- Python `str.strip()`: drop leading and trailing whitespace. -/
def stripWs (cs : List Char) : List Char :=
  ((cs.dropWhile isWs).reverse.dropWhile isWs).reverse

/-- Python `str.split()` (no argument): split on whitespace runs,
discarding empty fields.  `acc` holds the current word reversed. -/
def splitWsAux : List Char → List Char → List (List Char)
  | [], acc => if acc.isEmpty then [] else [acc.reverse]
  | c :: rest, acc =>
    if isWs c then
      if acc.isEmpty then splitWsAux rest []
      else acc.reverse :: splitWsAux rest []
    else splitWsAux rest (c :: acc)

/-- Python `needle in haystack` substring containment. -/
def containsSub (needle : List Char) : List Char → Bool
  | [] => needle.isEmpty
  | c :: rest => needle.isPrefixOf (c :: rest) || containsSub needle rest

/-- Semantics of an anchored Python regex `^(a1|a2|…)[cls]*$` applied with
`re.match`: the string is one of the alternatives followed only by
characters of the trailing class. -/
def matchAnchored (alts : List String) (cls : List Char) (s : List Char) : Bool :=
  alts.any fun a => a.data.isPrefixOf s && (s.drop a.data.length).all fun c => cls.contains c

namespace AnswerEngineService

/-! ## Answer engine (`backend/app/services/answer_engine.py`)

`_is_conversational_query`, `_chunks_are_relevant`,
`_generate_conversational_response`, `_format_context`,
`generate_answer` and `generate_answer_stream`.  The LLM call is the
only external effect; the embedding therefore returns an outcome value
that records whether the LLM was invoked (and on which formatted
context) instead of running it. -/

/-- A retrieved chunk as consumed by the answer engine: the `content`
field and the (possibly absent, per `chunk.get("score", 0)`) ranking
score. -/
structure RChunk where
  content : String
  score : Option ℚ
  deriving DecidableEq

/-- Alternatives of the greetings pattern
`^(hi|hello|hey|greetings|good morning|good afternoon|good evening|howdy)[\s!.,]*$`. -/
def greetingAlts : List String :=
  ["hi", "hello", "hey", "greetings", "good morning", "good afternoon",
   "good evening", "howdy"]

/-- Alternatives of the small-talk pattern
`how are you / whats up (with optional apostrophe) / hows it going (with
optional apostrophe) / how do you do`, anchored, trailing class `[\s?]`
(each optional apostrophe is expanded into both alternatives). -/
def smallTalkAlts : List String :=
  ["how are you", "whats up", "what\x27s up", "hows it going",
   "how\x27s it going", "how do you do"]

/-- Alternatives of the thanks pattern
`^(thanks|thank you|thx|appreciate it)[\s!.,]*$`. -/
def thanksAlts : List String :=
  ["thanks", "thank you", "thx", "appreciate it"]

/-- Alternatives of the generic pattern
`^(what can you do|who are you|what are you|help|help me)[\s?]*$`. -/
def genericAlts : List String :=
  ["what can you do", "who are you", "what are you", "help", "help me"]

/-- Trailing class `[\s!.,]`. -/
def punctCls : List Char := [' ', '\t', '\n', '\u000B', '\u000C', '\r', '!', '.', ',']

/-- Trailing class `[\s?]`. -/
def questionCls : List Char := [' ', '\t', '\n', '\u000B', '\u000C', '\r', '?']

/-- Question markers probed by the 1–2-word heuristic:
`['?', 'what', 'who', 'when', 'where', 'why', 'how', 'which']`. -/
def questionWords : List String :=
  ["?", "what", "who", "when", "where", "why", "how", "which"]

/-- `AnswerEngineService._is_conversational_query`. -/
def is_conversational_query (query : String) : Bool :=
  let ql := stripWs (query.data.map Char.toLower)
  if matchAnchored greetingAlts punctCls ql
      || matchAnchored smallTalkAlts questionCls ql
      || matchAnchored thanksAlts punctCls ql
      || matchAnchored genericAlts questionCls ql then
    true
  else
    decide ((splitWsAux ql []).length ≤ 2)
      && !(questionWords.any fun q => containsSub q.data ql)

/-- Canned greeting reply of `_generate_conversational_response`. -/
def greetResponse : String :=
  "Hello! I\x27m here to help you find information from your uploaded documents. Feel free to ask me questions about the content in your documents, and I\x27ll provide answers with citations."

/-- Canned thanks reply of `_generate_conversational_response`. -/
def thanksResponse : String :=
  "You\x27re welcome! I\x27m happy to help. If you have any questions about your documents, just ask!"

/-- Canned help reply of `_generate_conversational_response`. -/
def helpResponse : String :=
  "I\x27m an AI assistant that helps you find information from your uploaded documents. You can ask me questions about the content in your documents, and I\x27ll search through them to provide accurate answers with source citations. Try asking something like \x27What is mentioned about X?\x27 or \x27Summarize the key points from the documents.\x27"

/-- Default canned reply of `_generate_conversational_response`. -/
def defaultConvResponse : String :=
  "I\x27m here to help you find information from your uploaded documents. Feel free to ask me questions about the content in your documents!"

/-- `AnswerEngineService._generate_conversational_response`. -/
def generate_conversational_response (query : String) : String :=
  let ql := stripWs (query.data.map Char.toLower)
  if ["hi", "hello", "hey", "greetings", "howdy"].any
      (fun g => containsSub g.data ql) then greetResponse
  else if ["thanks", "thank you", "thx", "appreciate"].any
      (fun t => containsSub t.data ql) then thanksResponse
  else if ["help", "what can you do", "who are you", "what are you"].any
      (fun h => containsSub h.data ql) then helpResponse
  else defaultConvResponse

/-- `AnswerEngineService._chunks_are_relevant` (source default
`min_score = 0.4` is passed explicitly by the Lean caller). -/
def chunks_are_relevant (chunks : List RChunk) (min_score : ℚ) : Bool :=
  if chunks.isEmpty then false
  else
    let top_scores := (chunks.take 3).map fun c => c.score.getD 0
    let avg_top_score : ℚ :=
      if top_scores.isEmpty then 0 else top_scores.sum / (top_scores.length : ℚ)
    decide (avg_top_score ≥ min_score)

/-- `AnswerEngineService._format_context`: `[n] <content>` joined by
blank lines, one-indexed. -/
def format_context (chunks : List RChunk) : String :=
  String.intercalate "\n\n"
    (chunks.enum.map fun ic => "[" ++ toString (ic.1 + 1) ++ "] " ++ ic.2.content)

/-- Fixed batch fallback message of `generate_answer`. -/
def noInfoMessage : String :=
  "I couldn\x27t find any relevant information in your documents to answer this question. Please try uploading more documents or rephrasing your query."

/-- Fixed streaming fallback message of `generate_answer_stream`. -/
def noInfoMessageStream : String :=
  "I couldn\x27t find any relevant information in your documents to answer this question."

/-- Outcome of `generate_answer`: a canned conversational reply, the
fixed fallback message, or an LLM invocation on a formatted context. -/
inductive AnswerOutcome
  | canned (response : String)
  | fallback (message : String)
  | llm (context : String)
  deriving DecidableEq

/-- `AnswerEngineService.generate_answer`, up to the point where the LLM
would be invoked. -/
def generate_answer (query : String) (chunks : List RChunk) : AnswerOutcome :=
  if is_conversational_query query then
    .canned (generate_conversational_response query)
  else if chunks.isEmpty || !chunks_are_relevant chunks (2/5) then
    if is_conversational_query query
        || decide ((splitWsAux (stripWs query.data) []).length ≤ 3) then
      .canned (generate_conversational_response query)
    else
      .fallback noInfoMessage
  else
    .llm (format_context chunks)

/-- Outcome of `generate_answer_stream`: the list of strings yielded by
the generator, or an LLM streaming invocation on a formatted context. -/
inductive StreamOutcome
  | yields (pieces : List String)
  | llmStream (context : String)
  deriving DecidableEq

/-- `for char in response: yield char` — the canned string as a list of
one-character strings. -/
def charPieces (s : String) : List String := s.data.map fun c => String.mk [c]

/-- `AnswerEngineService.generate_answer_stream`, up to the point where
the LLM stream would be forwarded. -/
def generate_answer_stream (query : String) (chunks : List RChunk) : StreamOutcome :=
  if is_conversational_query query then
    .yields (charPieces (generate_conversational_response query))
  else if chunks.isEmpty || !chunks_are_relevant chunks (2/5) then
    if is_conversational_query query
        || decide ((splitWsAux (stripWs query.data) []).length ≤ 3) then
      .yields (charPieces (generate_conversational_response query))
    else
      .yields [noInfoMessageStream]
  else
    .llmStream (format_context chunks)

end AnswerEngineService

namespace RetrieverService

/-! ## Retrieval service (`backend/app/services/retriever.py`)

`_hybrid_merge`, the score-normalization step of `_bm25_search`, and the
sort/threshold/truncate tail of `retrieve`.  Candidates are modelled as
`(chunk id, score)` pairs with rational scores; the Python
`list.sort(key=..., reverse=True)` (a stable sort) is modelled by a
stable insertion sort on descending scores. -/

/-- `MIN_SIMILARITY_THRESHOLD = 0.3`. -/
def MIN_SIMILARITY_THRESHOLD : ℚ := 3/10

/-- `HYBRID_ALPHA = 0.7`. -/
def HYBRID_ALPHA : ℚ := 7/10

/-- A scored retrieval candidate: chunk id and current score. -/
abbrev Cand := Nat × ℚ

/-- Insert into a list sorted by descending score, after all entries
with a greater-or-equal score (stable, as the Python sort). -/
def insertDesc (x : Cand) : List Cand → List Cand
  | [] => [x]
  | y :: ys => if x.2 ≤ y.2 then y :: insertDesc x ys else x :: y :: ys

/-- `list.sort(key=lambda c: c["score"], reverse=True)`. -/
def sortDesc (l : List Cand) : List Cand := l.foldr insertDesc []

/-- The descending-score ordering on candidates. -/
def scoreGE (a b : Cand) : Prop := b.2 ≤ a.2

/-- First-appearance deduplication of the id multiset (Python iterates
`set(...)` in unspecified order; any order is equivalent here because the
result is sorted afterwards). -/
def dedupIds : List Nat → List Nat
  | [] => []
  | x :: xs => x :: (dedupIds xs).filter fun y => y != x

/-- The value of a Python dict comprehension `{r["id"]: r["score"] for r
in rs}` at key `i`: the score of the last entry bearing id `i`. -/
def dictScore (rs : List Cand) (i : Nat) : Option ℚ :=
  ((rs.filter fun r => r.1 == i).map Prod.snd).getLast?

/-- `RetrieverService._hybrid_merge`: per chunk id,
`alpha * vector_score + (1 - alpha) * bm25_score`, a missing side
defaulting to `0`, sorted by descending merged score.  (Python iterates
the id set in unspecified order before sorting; the embedding uses
first-appearance order, which the final sort makes irrelevant.) -/
def hybrid_merge (vector_results bm25_results : List Cand) (alpha : ℚ) :
    List Cand :=
  let all_ids := dedupIds (vector_results.map Prod.fst ++ bm25_results.map Prod.fst)
  let hybrid_results := all_ids.map fun i =>
    (i, alpha * (dictScore vector_results i).getD 0
        + (1 - alpha) * (dictScore bm25_results i).getD 0)
  sortDesc hybrid_results

/-- Python `max(scores)` on a list (`0` on the empty list, which the
source never passes: `_bm25_search` returns early for empty corpora). -/
def pyMax : List ℚ → ℚ
  | [] => 0
  | x :: xs => xs.foldl max x

/-- The normalization divisor of `_bm25_search`:
`max_score = max(scores) if max(scores) > 0 else 1`. -/
def bm25_divisor (scores : List ℚ) : ℚ :=
  if pyMax scores > 0 then pyMax scores else 1

/-- The score-normalization step of `_bm25_search`:
`scored_chunk["score"] = scores[idx] / max_score` for every chunk. -/
def bm25_normalize (scores : List ℚ) : List ℚ :=
  scores.map fun s => s / bm25_divisor scores

/-- Tail of `RetrieverService.retrieve` after cross-variant candidate
accumulation, on the path where re-ranking is disabled or unavailable:
sort by descending score, drop candidates below
`MIN_SIMILARITY_THRESHOLD`, keep the first `top_k`. -/
def retrieve_tail (candidates : List Cand) (top_k : Nat) : List Cand :=
  (((sortDesc candidates).filter
      fun c => MIN_SIMILARITY_THRESHOLD ≤ c.2).take top_k)

end RetrieverService

namespace Security

/-! ## Security core (`backend/app/core/security.py`)

`require_role` and `require_tenant_access`.  JWT claim values are
dynamically typed in Python; the `tenant_id` claim is modelled by a
small JSON-value type so that Python truthiness (`not value`) is
explicit. -/

/-- A JSON claim value as carried in a decoded token payload. -/
inductive JValue
  | null
  | jint (n : Int)
  | jstr (s : String)
  | jbool (b : Bool)
  deriving DecidableEq

/-- Python falsiness of a claim value: `None`, `0`, `""` and `False`
are falsy. -/
def falsy : JValue → Bool
  | .null => true
  | .jint n => n == 0
  | .jstr s => s == ""
  | .jbool b => !b

/-- The principal record produced by `get_current_user`
(`{user_id, tenant_id, email, role}`; `role` defaults to `"viewer"`
there, so it is always present). -/
structure Principal where
  user_id : Int
  tenant_id : JValue
  email : String
  role : String
  deriving DecidableEq

/-- An HTTP error raised by a dependency (`HTTPException`). -/
structure HttpError where
  status_code : Nat
  detail : String
  deriving DecidableEq

/-- The `role_hierarchy` dict of `require_role`. -/
def role_hierarchy : List (String × Nat) :=
  [("owner", 4), ("admin", 3), ("member", 2), ("viewer", 1)]

/-- `role_hierarchy.get(role, 0)`. -/
def roleLevel (role : String) : Nat :=
  ((role_hierarchy.find? fun p => p.1 == role).map Prod.snd).getD 0

/-- The inner `role_checker` of `require_role(required_role)`, applied to the
resolved principal. -/
def require_role (required_role : String) (current_user : Principal) :
    Except HttpError Principal :=
  if roleLevel current_user.role < roleLevel required_role then
    .error ⟨403, "Insufficient permissions. Required role: " ++ required_role ++ " or higher"⟩
  else
    .ok current_user

/-- `require_tenant_access` applied to the resolved principal:
forbidden when `current_user.get("tenant_id")` is falsy. -/
def require_tenant_access (current_user : Principal) :
    Except HttpError Principal :=
  if falsy current_user.tenant_id then
    .error ⟨403, "No tenant context available"⟩
  else
    .ok current_user

end Security

namespace RagApi

/-! ## RAG query routes (`backend/app/api/v1/rag.py`)

`query_documents` (POST `/rag/query`) and `query_documents_stream`
(POST `/rag/query-stream`).  Each handler is embedded as the sequence of
externally visible steps it performs, parameterized by the chunk list
the retrieval service would return; the first step records the
retrieval call and its `top_k` argument. -/

/-- The request body `QueryRequest`. -/
structure QueryRequest where
  query : String
  document_ids : Option (List Int)
  deriving DecidableEq

/-- A chunk record as returned by `RetrieverService.retrieve` to the
route layer. -/
structure RouteChunk where
  id : Nat
  content : String
  document_name : String
  score : ℚ
  deriving DecidableEq

/-- Externally visible steps of a RAG route handler. -/
inductive RagStep
  | retrieveCall (query : String) (top_k : Nat)
  | respond (answer : String)
  | llmInvoke (context : String)
  | streamLlmTokens (context : String)
  | emitFrame (payload : String)
  deriving DecidableEq

/-- Context string built by both handlers:
`[n] <content>\n(Source: <document_name>)`, joined by blank lines. -/
def buildContext (chunks : List RouteChunk) : String :=
  String.intercalate "\n\n"
    (chunks.enum.map fun ic =>
      "[" ++ toString (ic.1 + 1) ++ "] " ++ ic.2.content
        ++ "\n(Source: " ++ ic.2.document_name ++ ")")

/-- Empty-result answer of the non-streaming route. -/
def noChunksAnswer : String :=
  "I couldn\x27t find any relevant information in your documents to answer this question. Please try uploading more documents or rephrasing your question."

/-- `query_documents` (POST `/rag/query`): the handler retrieves with
`top_k=10` unconditionally (there is no conversational-query gate in
the route), then answers from the empty-result message or the LLM. -/
def query_documents (request : QueryRequest) (retrieved : List RouteChunk) :
    List RagStep :=
  RagStep.retrieveCall request.query 10 ::
    (if retrieved.isEmpty then
      [RagStep.respond noChunksAnswer]
    else
      [RagStep.llmInvoke (buildContext retrieved)])

/-- Empty-result token of the streaming route. -/
def noChunksToken : String :=
  "I couldn\x27t find any relevant information in your documents."

/-- `query_documents_stream` (POST `/rag/query-stream`): the inner
`generate()` likewise retrieves with `top_k=10` unconditionally. -/
def query_documents_stream (request : QueryRequest)
    (retrieved : List RouteChunk) : List RagStep :=
  RagStep.retrieveCall request.query 10 ::
    (if retrieved.isEmpty then
      [RagStep.emitFrame noChunksToken, RagStep.emitFrame "[DONE]"]
    else
      [RagStep.streamLlmTokens (buildContext retrieved),
       RagStep.emitFrame "[DONE]"])

end RagApi

namespace DocumentsApi

/-! ## Document stats route (`backend/app/api/v1/documents.py`)

`get_document_stats` (GET `/documents/{id}/stats`).  The handler's
chunk-count query references the global name `Chunk`, so the embedding
carries the import-bound names of the module: a Python global name lookup
that misses raises `NameError`, which the handler's blanket
`except Exception` turns into HTTP 500. -/

/-- Names bound at module level in `backend/app/api/v1/documents.py`
(its imports and top-level definitions, lines 3–30 and the route
functions).  `Chunk` is not among them. -/
def moduleNames : List String :=
  ["asyncio", "datetime", "Path", "APIRouter", "Depends", "UploadFile",
   "File", "HTTPException", "status", "BackgroundTasks", "AsyncSession",
   "select", "delete", "BaseModel", "get_db", "AsyncSessionLocal",
   "get_current_user", "require_role", "require_tenant_access",
   "Document", "DocumentStatus", "storage_service", "ingestion_service",
   "get_logger", "logger", "router", "ALLOWED_FILE_TYPES",
   "ALLOWED_EXTENSIONS", "DocumentResponse",
   "process_document_background", "upload_document", "list_documents",
   "get_document_stats", "get_document", "delete_document"]

/-- Local names bound inside `get_document_stats` before the chunk-count
query runs (parameters, earlier assignments, and the function-local
`from sqlalchemy import func`). -/
def statsLocalNames : List String :=
  ["document_id", "current_user", "db", "result", "document", "func"]

/-- Whether the name `Chunk` resolves at the chunk-count expression
(locals, then module globals; it is no builtin). -/
def chunkNameResolves : Bool :=
  statsLocalNames.contains "Chunk" || moduleNames.contains "Chunk"

/-- A `documents` table row as read by the route. -/
structure DocumentRow where
  id : Int
  tenant_id : Int
  filename : String
  statusValue : String
  file_size : Int
  error_message : Option String
  deriving DecidableEq

/-- A `chunks` table row (only the parent document id matters here). -/
structure ChunkRow where
  id : Int
  document_id : Int
  deriving DecidableEq

/-- Successful stats payload of `get_document_stats`. -/
structure StatsPayload where
  document_id : Int
  filename : String
  statusValue : String
  chunk_count : Nat
  file_size : Int
  error_message : Option String
  deriving DecidableEq

/-- Result of the route: the stats payload or an `HTTPException`. -/
inductive StatsResult
  | ok (payload : StatsPayload)
  | httpError (status_code : Nat) (detail : String)
  deriving DecidableEq

/-- `get_document_stats`, given the table contents: select the document
by id and tenant (404 when absent), then count its chunks — an
expression that evaluates the unresolvable global `Chunk` and therefore
raises `NameError`, caught by `except Exception` as a 500. -/
def get_document_stats (docs : List DocumentRow) (chunks : List ChunkRow)
    (document_id : Int) (tenant_id : Int) : StatsResult :=
  match docs.find? fun d => d.id == document_id && d.tenant_id == tenant_id with
  | none => .httpError 404 "Document not found"
  | some document =>
    if chunkNameResolves then
      .ok ⟨document.id, document.filename, document.statusValue,
           (chunks.filter fun c => c.document_id == document_id).length,
           document.file_size, document.error_message⟩
    else
      .httpError 500 "Failed to get document stats"

end DocumentsApi

namespace CredEnc

/-! ## Credential encryption (`backend/app/core/encryption.py`)

`CredentialEncryption.encrypt` / `.decrypt` are the composition
`urlsafe_b64encode ∘ Fernet.encrypt ∘ json.dumps` and its inverse, with
every failure wrapped into a `ValueError`.  The three building blocks
are external libraries and are modelled from their documented
contracts:

* the JSON codec is modelled by a canonical, injective serializer of
  string-keyed string payloads with a verified strict parser;
* the Fernet authenticated cipher is modelled by a keyed token format
  whose decryption succeeds exactly on tokens produced under the same
  key (the Fernet HMAC authentication, idealized);
* the URL-safe base64 codec is implemented concretely over byte lists,
  with a strict (canonical-form-only) decoder.

Bytes and text characters are both modelled as natural numbers
(byte values / code points). -/

/-- Encoding of a natural number as a nonempty-or-empty block of
strictly positive bytes: its base-255 digits shifted by one.  Used as a
zero-terminated field inside serialized structures. -/
def natEnc (n : Nat) : List Nat := (Nat.digits 255 n).map (· + 1)

/-- Split a byte list at its first `0` byte: returns the (zero-free)
prefix and the remainder after the `0`. -/
def splitAtZero : List Nat → Option (List Nat × List Nat)
  | [] => none
  | 0 :: rest => some ([], rest)
  | b :: rest =>
    match splitAtZero rest with
    | none => none
    | some (pre, post) => some (b :: pre, post)

/-- Parse a zero-terminated `natEnc` field, rejecting non-canonical
digit blocks. -/
def parseNat (l : List Nat) : Option (Nat × List Nat) :=
  match splitAtZero l with
  | none => none
  | some (ds, rest) =>
    let n := Nat.ofDigits 255 (ds.map fun d => d - 1)
    if natEnc n = ds then some (n, rest) else none

/-- Modelled from the spec: the Fernet authenticated symmetric cipher
(external `cryptography.fernet` library; "AES-128 in CBC mode with
HMAC-SHA256 authentication").  The model is an idealized authenticated
scheme: a token carries the key, the message length and the message
(in a redundant framing standing in for the HMAC tag), and decryption
succeeds exactly on tokens produced by this function under the same
key. -/
def fernetEncrypt (k : Nat) (msg : List Nat) : List Nat :=
  natEnc k ++ 0 :: (natEnc msg.length ++ 0 :: (msg ++ msg))

/-- Modelled from the spec: Fernet decryption — strict parsing of the
token format of `fernetEncrypt`, failing on any mismatch (wrong key,
malformed framing, or inconsistent redundancy). -/
def fernetDecrypt (k : Nat) (token : List Nat) : Option (List Nat) :=
  match splitAtZero token with
  | none => none
  | some (kenc, r1) =>
    if kenc = natEnc k then
      match parseNat r1 with
      | none => none
      | some (n, r2) =>
        if r2.length = 2 * n && r2.take n == r2.drop n then
          some (r2.take n)
        else none
    else none

/-- A Python string, as a list of code points. -/
abbrev PyStr := List Nat

/-- A JSON-serializable credential payload, modelled as a string-keyed
map of string values (the shape the credential service stores). -/
abbrev Payload := List (PyStr × PyStr)

/-- A zero-terminated number field. -/
def encNat (n : Nat) : List Nat := natEnc n ++ [0]

/-- Serialization of one string: its length, then each code point as a
zero-terminated field. -/
def encStr (s : PyStr) : List Nat := encNat s.length ++ (s.map encNat).flatten

/-- Modelled from the spec: `json.dumps` (external stdlib `json`) — a
canonical injective serialization of the payload to bytes. -/
def dumps (p : Payload) : List Nat :=
  encNat p.length ++ (p.map fun kv => encStr kv.1 ++ encStr kv.2).flatten

/-- Parse `n` code points. -/
def parseChars : Nat → List Nat → Option (PyStr × List Nat)
  | 0, l => some ([], l)
  | n + 1, l =>
    match parseNat l with
    | none => none
    | some (c, r) =>
      match parseChars n r with
      | none => none
      | some (cs, r') => some (c :: cs, r')

/-- Parse one serialized string. -/
def parseStr (l : List Nat) : Option (PyStr × List Nat) :=
  match parseNat l with
  | none => none
  | some (n, r) => parseChars n r

/-- Parse `n` key/value pairs. -/
def parsePairs : Nat → List Nat → Option (Payload × List Nat)
  | 0, l => some ([], l)
  | n + 1, l =>
    match parseStr l with
    | none => none
    | some (k, r) =>
      match parseStr r with
      | none => none
      | some (v, r') =>
        match parsePairs n r' with
        | none => none
        | some (ps, r'') => some ((k, v) :: ps, r'')

/-- Modelled from the spec: `json.loads` (external stdlib `json`) — the
strict inverse of `dumps`, rejecting any input that is not a canonical
serialization consumed in full. -/
def loads (l : List Nat) : Option Payload :=
  match parseNat l with
  | none => none
  | some (n, r) =>
    match parsePairs n r with
    | some (ps, []) => some ps
    | _ => none

/-- The six-bit value `n` as the code of its URL-safe base64 alphabet
character (`A–Z a–z 0–9 - _`). -/
def sixToCode (n : Nat) : Nat :=
  if n < 26 then 65 + n
  else if n < 52 then 97 + (n - 26)
  else if n < 62 then 48 + (n - 52)
  else if n = 62 then 45
  else 95

/-- Inverse alphabet lookup; `none` for characters outside the URL-safe
base64 alphabet (including the pad `=`, code 61). -/
def codeToSix (c : Nat) : Option Nat :=
  if 65 ≤ c ∧ c ≤ 90 then some (c - 65)
  else if 97 ≤ c ∧ c ≤ 122 then some (c - 97 + 26)
  else if 48 ≤ c ∧ c ≤ 57 then some (c - 48 + 52)
  else if c = 45 then some 62
  else if c = 95 then some 63
  else none

/-- Modelled from the spec: `base64.urlsafe_b64encode` (external stdlib
`base64`), bytes to character codes, `=`-padded. -/
def b64Encode : List Nat → List Nat
  | [] => []
  | [a] => [sixToCode (a / 4), sixToCode (a % 4 * 16), 61, 61]
  | [a, b] =>
    [sixToCode (a / 4), sixToCode (a % 4 * 16 + b / 16),
     sixToCode (b % 16 * 4), 61]
  | a :: b :: c :: rest =>
    sixToCode (a / 4) :: sixToCode (a % 4 * 16 + b / 16)
      :: sixToCode (b % 16 * 4 + c / 64) :: sixToCode (c % 64)
      :: b64Encode rest

/-- Modelled from the spec: `base64.urlsafe_b64decode` (external stdlib
`base64`) — strict decoder accepting only the canonical output format
of `b64Encode` (correct padding, zero stuffing bits). -/
def b64Decode : List Nat → Option (List Nat)
  | [] => some []
  | c1 :: c2 :: c3 :: c4 :: rest =>
    if rest.isEmpty && c3 == 61 && c4 == 61 then
      match codeToSix c1, codeToSix c2 with
      | some a, some b =>
        if b % 16 = 0 then some [a * 4 + b / 16] else none
      | _, _ => none
    else if rest.isEmpty && c4 == 61 then
      match codeToSix c1, codeToSix c2, codeToSix c3 with
      | some a, some b, some c =>
        if c % 4 = 0 then some [a * 4 + b / 16, b % 16 * 16 + c / 4]
        else none
      | _, _, _ => none
    else
      match codeToSix c1, codeToSix c2, codeToSix c3, codeToSix c4 with
      | some a, some b, some c, some d =>
        match b64Decode rest with
        | none => none
        | some tail =>
          some ((a * 4 + b / 16) :: (b % 16 * 16 + c / 4)
            :: (c % 4 * 64 + d) :: tail)
      | _, _, _, _ => none
  | _ => none

/-- `CredentialEncryption.encrypt`:
`urlsafe_b64encode(cipher.encrypt(json.dumps(data).encode())).decode()`.
Total on the modelled payload type (every payload is serializable). -/
def encrypt (key : Nat) (data : Payload) : List Nat :=
  b64Encode (fernetEncrypt key (dumps data))

/-- The `ValueError` message prefix raised by
`CredentialEncryption.decrypt` on any failure. -/
def decryptError : String := "Failed to decrypt credentials"

/-- `CredentialEncryption.decrypt`:
`json.loads(cipher.decrypt(urlsafe_b64decode(encrypted_data.encode())))`,
with any failure surfaced as a `ValueError`. -/
def decrypt (key : Nat) (encrypted_data : List Nat) : Except String Payload :=
  match b64Decode encrypted_data with
  | none => .error decryptError
  | some token =>
    match fernetDecrypt key token with
    | none => .error decryptError
    | some plaintext =>
      match loads plaintext with
      | none => .error decryptError
      | some data => .ok data

end CredEnc

section ScratchChecks

example : AnswerEngineService.is_conversational_query "hi" = true := by decide

example : AnswerEngineService.is_conversational_query
    "summarize the quarterly revenue figures" = false := by decide

example : AnswerEngineService.is_conversational_query "thanks!" = true := by decide

example : AnswerEngineService.is_conversational_query "ok" = true := by decide

example : AnswerEngineService.is_conversational_query "what is bm25" = false := by decide

example : AnswerEngineService.chunks_are_relevant
    [⟨"a", some (1/2)⟩, ⟨"b", some (1/2)⟩, ⟨"c", some (1/2)⟩] (2/5) = true := by
  norm_num [AnswerEngineService.chunks_are_relevant]

example : AnswerEngineService.chunks_are_relevant
    [⟨"a", some (3/10)⟩] (2/5) = false := by
  norm_num [AnswerEngineService.chunks_are_relevant]

end ScratchChecks

namespace RetrieverService

theorem mem_insertDesc {x y : Cand} {l : List Cand} :
    y ∈ insertDesc x l ↔ y = x ∨ y ∈ l := by
  induction l with
  | nil => simp [insertDesc]
  | cons z zs ih =>
    simp only [insertDesc]
    split
    · simp only [List.mem_cons, ih]
      tauto
    · simp [List.mem_cons]

theorem mem_sortDesc {y : Cand} {l : List Cand} :
    y ∈ sortDesc l ↔ y ∈ l := by
  induction l with
  | nil => simp [sortDesc]
  | cons z zs ih =>
    simp only [sortDesc, List.foldr_cons, mem_insertDesc, List.mem_cons]
    rw [show List.foldr insertDesc [] zs = sortDesc zs from rfl, ih]

theorem pairwise_insertDesc {x : Cand} {l : List Cand}
    (h : l.Pairwise scoreGE) : (insertDesc x l).Pairwise scoreGE := by
  induction l with
  | nil => simp [insertDesc, scoreGE]
  | cons z zs ih =>
    rw [List.pairwise_cons] at h
    simp only [insertDesc]
    by_cases hle : x.2 ≤ z.2
    · rw [if_pos hle, List.pairwise_cons]
      refine ⟨fun y hy => ?_, ih h.2⟩
      rcases mem_insertDesc.mp hy with rfl | hy'
      · exact hle
      · exact h.1 y hy'
    · rw [if_neg hle, List.pairwise_cons]
      refine ⟨fun y hy => ?_, List.pairwise_cons.mpr h⟩
      rcases List.mem_cons.mp hy with rfl | hy'
      · exact le_of_not_le hle
      · exact le_trans (h.1 y hy') (le_of_not_le hle)

theorem pairwise_sortDesc (l : List Cand) : (sortDesc l).Pairwise scoreGE := by
  induction l with
  | nil => simp [sortDesc]
  | cons z zs ih => exact pairwise_insertDesc ih

end RetrieverService

namespace CredEnc

theorem natEnc_pos {n b : Nat} (h : b ∈ natEnc n) : b ≠ 0 := by
  unfold natEnc at h
  obtain ⟨d, _, rfl⟩ := List.mem_map.mp h
  omega

theorem natEnc_lt {n b : Nat} (h : b ∈ natEnc n) : b < 256 := by
  unfold natEnc at h
  obtain ⟨d, hd, rfl⟩ := List.mem_map.mp h
  have := Nat.digits_lt_base (by norm_num) hd
  omega

theorem natEnc_decode (n : Nat) :
    Nat.ofDigits 255 ((natEnc n).map fun d => d - 1) = n := by
  unfold natEnc
  rw [List.map_map]
  have h : ((fun d => d - 1) ∘ fun d => d + 1) = id :=
    funext fun d => by simp
  rw [h, List.map_id]
  exact Nat.ofDigits_digits 255 n

theorem natEnc_inj {m n : Nat} (h : natEnc m = natEnc n) : m = n := by
  have := congrArg (fun l => Nat.ofDigits 255 (l.map fun d => d - 1)) h
  simpa [natEnc_decode] using this

theorem splitAtZero_append {pre rest : List Nat} (h : ∀ b ∈ pre, b ≠ 0) :
    splitAtZero (pre ++ 0 :: rest) = some (pre, rest) := by
  induction pre with
  | nil => simp [splitAtZero]
  | cons b pre ih =>
    match b, h b (by simp) with
    | Nat.succ m, _ =>
      simp only [List.cons_append, splitAtZero]
      rw [show pre.append (0 :: rest) = pre ++ 0 :: rest from rfl,
        ih fun x hx => h x (by simp [hx])]

theorem splitAtZero_sound :
    ∀ {l pre rest : List Nat}, splitAtZero l = some (pre, rest) →
      l = pre ++ 0 :: rest ∧ ∀ b ∈ pre, b ≠ 0 := by
  intro l
  induction l with
  | nil => intro pre rest h; simp [splitAtZero] at h
  | cons b bs ih =>
    intro pre rest h
    match b with
    | 0 =>
      simp only [splitAtZero, Option.some.injEq, Prod.mk.injEq] at h
      obtain ⟨rfl, rfl⟩ := h
      simp
    | Nat.succ m =>
      simp only [splitAtZero] at h
      cases hs : splitAtZero bs with
      | none => rw [hs] at h; simp at h
      | some pr =>
        obtain ⟨pre', post'⟩ := pr
        rw [hs] at h
        simp only [Option.some.injEq, Prod.mk.injEq] at h
        obtain ⟨h1, h2⟩ := h
        subst h1
        subst h2
        obtain ⟨hl, hz⟩ := ih hs
        subst hl
        refine ⟨by simp, ?_⟩
        intro x hx
        rcases List.mem_cons.mp hx with rfl | hx'
        · omega
        · exact hz x hx'

theorem parseNat_complete (n : Nat) (rest : List Nat) :
    parseNat (natEnc n ++ 0 :: rest) = some (n, rest) := by
  unfold parseNat
  rw [splitAtZero_append fun b hb => natEnc_pos hb]
  simp [natEnc_decode]

theorem parseNat_sound {l : List Nat} {n : Nat} {rest : List Nat}
    (h : parseNat l = some (n, rest)) : l = natEnc n ++ 0 :: rest := by
  unfold parseNat at h
  cases hs : splitAtZero l with
  | none => rw [hs] at h; simp at h
  | some pr =>
    obtain ⟨ds, r⟩ := pr
    rw [hs] at h
    simp only at h
    split at h
    · simp only [Option.some.injEq, Prod.mk.injEq] at h
      obtain ⟨hl, _⟩ := splitAtZero_sound hs
      subst hl
      rw [← h.2, ← ‹natEnc (Nat.ofDigits 255 (ds.map fun d => d - 1)) = ds›, h.1]
    · simp at h

end CredEnc

namespace CredEnc

theorem encNat_append (n : Nat) (l : List Nat) :
    encNat n ++ l = natEnc n ++ 0 :: l := by
  simp [encNat]

theorem parseChars_complete (s : PyStr) (rest : List Nat) :
    parseChars s.length ((s.map encNat).flatten ++ rest) = some (s, rest) := by
  induction s generalizing rest with
  | nil => simp [parseChars]
  | cons c cs ih =>
    simp [parseChars, encNat_append, parseNat_complete, ih, List.append_assoc]

theorem parseChars_sound :
    ∀ (n : Nat) {l : List Nat} {s : PyStr} {rest : List Nat},
      parseChars n l = some (s, rest) →
      l = (s.map encNat).flatten ++ rest ∧ s.length = n := by
  intro n
  induction n with
  | zero =>
    intro l s rest h
    simp only [parseChars, Option.some.injEq, Prod.mk.injEq] at h
    obtain ⟨h1, h2⟩ := h
    subst h1; subst h2
    simp
  | succ m ih =>
    intro l s rest h
    simp only [parseChars] at h
    cases hp : parseNat l with
    | none => rw [hp] at h; simp at h
    | some cr =>
      obtain ⟨c, r⟩ := cr
      rw [hp] at h
      simp only at h
      cases hc : parseChars m r with
      | none => rw [hc] at h; simp at h
      | some csr =>
        obtain ⟨cs, r'⟩ := csr
        rw [hc] at h
        simp only [Option.some.injEq, Prod.mk.injEq] at h
        obtain ⟨h1, h2⟩ := h
        subst h1; subst h2
        obtain ⟨hr, hlen⟩ := ih hc
        subst hr
        rw [parseNat_sound hp]
        simp [encNat_append, hlen]

theorem parseStr_complete (s : PyStr) (rest : List Nat) :
    parseStr (encStr s ++ rest) = some (s, rest) := by
  unfold parseStr encStr
  simp [encNat_append, parseNat_complete, parseChars_complete, List.append_assoc]

theorem parseStr_sound {l : List Nat} {s : PyStr} {rest : List Nat}
    (h : parseStr l = some (s, rest)) : l = encStr s ++ rest := by
  unfold parseStr at h
  cases hp : parseNat l with
  | none => rw [hp] at h; simp at h
  | some nr =>
    obtain ⟨n, r⟩ := nr
    rw [hp] at h
    simp only at h
    obtain ⟨hr, hlen⟩ := parseChars_sound n h
    rw [parseNat_sound hp, hr, ← hlen]
    simp [encStr, encNat_append]

theorem parsePairs_complete (p : Payload) (rest : List Nat) :
    parsePairs p.length
      ((p.map fun kv => encStr kv.1 ++ encStr kv.2).flatten ++ rest) =
      some (p, rest) := by
  induction p generalizing rest with
  | nil => simp [parsePairs]
  | cons kv ps ih =>
    simp [parsePairs, parseStr_complete, ih, List.append_assoc]

theorem parsePairs_sound :
    ∀ (n : Nat) {l : List Nat} {p : Payload} {rest : List Nat},
      parsePairs n l = some (p, rest) →
      l = (p.map fun kv => encStr kv.1 ++ encStr kv.2).flatten ++ rest
        ∧ p.length = n := by
  intro n
  induction n with
  | zero =>
    intro l p rest h
    simp only [parsePairs, Option.some.injEq, Prod.mk.injEq] at h
    obtain ⟨h1, h2⟩ := h
    subst h1; subst h2
    simp
  | succ m ih =>
    intro l p rest h
    simp only [parsePairs] at h
    cases hk : parseStr l with
    | none => rw [hk] at h; simp at h
    | some kr =>
      obtain ⟨k, r⟩ := kr
      rw [hk] at h
      simp only at h
      cases hv : parseStr r with
      | none => rw [hv] at h; simp at h
      | some vr =>
        obtain ⟨v, r'⟩ := vr
        rw [hv] at h
        simp only at h
        cases hp : parsePairs m r' with
        | none => rw [hp] at h; simp at h
        | some pr =>
          obtain ⟨ps, r''⟩ := pr
          rw [hp] at h
          simp only [Option.some.injEq, Prod.mk.injEq] at h
          obtain ⟨h1, h2⟩ := h
          subst h1; subst h2
          obtain ⟨hr', hlen⟩ := ih hp
          subst hr'
          rw [parseStr_sound hk, parseStr_sound hv]
          simp [hlen]

theorem loads_dumps (p : Payload) : loads (dumps p) = some p := by
  have h := parsePairs_complete p []
  rw [List.append_nil] at h
  unfold loads dumps
  simp [encNat_append, parseNat_complete, h]

theorem loads_sound {l : List Nat} {p : Payload}
    (h : loads l = some p) : l = dumps p := by
  unfold loads at h
  cases hn : parseNat l with
  | none => rw [hn] at h; simp at h
  | some nr =>
    obtain ⟨n, r⟩ := nr
    rw [hn] at h
    simp only at h
    cases hp : parsePairs n r with
    | none => rw [hp] at h; simp at h
    | some pr =>
      obtain ⟨ps, r'⟩ := pr
      rw [hp] at h
      match r', h with
      | [], h =>
        simp only [Option.some.injEq] at h
        subst h
        obtain ⟨hr, hlen⟩ := parsePairs_sound n hp
        rw [parseNat_sound hn, hr, ← hlen]
        simp [dumps, encNat_append]

end CredEnc

namespace CredEnc

theorem fernetDecrypt_complete (k : Nat) (msg : List Nat) :
    fernetDecrypt k (fernetEncrypt k msg) = some msg := by
  unfold fernetDecrypt fernetEncrypt
  rw [splitAtZero_append fun b hb => natEnc_pos hb]
  simp only [if_pos rfl, parseNat_complete]
  have hlen : (msg ++ msg).length = 2 * msg.length := by
    simp [two_mul]
  have htake : (msg ++ msg).take msg.length = msg := by
    simp
  have hdrop : (msg ++ msg).drop msg.length = msg := by
    simp
  simp [hlen, htake, hdrop]

theorem fernetDecrypt_sound {k : Nat} {token msg : List Nat}
    (h : fernetDecrypt k token = some msg) : token = fernetEncrypt k msg := by
  unfold fernetDecrypt at h
  cases hs : splitAtZero token with
  | none => rw [hs] at h; simp at h
  | some pr =>
    obtain ⟨kenc, r1⟩ := pr
    rw [hs] at h
    simp only at h
    split at h
    · cases hp : parseNat r1 with
      | none => rw [hp] at h; simp at h
      | some nr =>
        obtain ⟨n, r2⟩ := nr
        rw [hp] at h
        simp only at h
        split at h
        · simp only [Option.some.injEq] at h
          rename_i hkenc hguard
          rw [Bool.and_eq_true, beq_iff_eq, decide_eq_true_eq] at hguard
          obtain ⟨hlen, heq⟩ := hguard
          obtain ⟨htok, _⟩ := splitAtZero_sound hs
          have hr1 := parseNat_sound hp
          have hmsg : msg = r2.take n := h.symm
          have hmlen : msg.length = n := by
            rw [hmsg, List.length_take]
            omega
          have hr2 : r2 = msg ++ msg := by
            conv_lhs => rw [← List.take_append_drop n r2]
            rw [← heq, ← hmsg]
          rw [htok, hkenc, hr1, hr2, ← hmlen]
          rfl
        · simp at h
    · simp at h

theorem fernetEncrypt_inj {k k' : Nat} {m m' : List Nat}
    (h : fernetEncrypt k m = fernetEncrypt k' m') : k = k' ∧ m = m' := by
  have h1 : splitAtZero (fernetEncrypt k m) =
      some (natEnc k, natEnc m.length ++ 0 :: (m ++ m)) := by
    unfold fernetEncrypt
    exact splitAtZero_append fun b hb => natEnc_pos hb
  have h2 : splitAtZero (fernetEncrypt k' m') =
      some (natEnc k', natEnc m'.length ++ 0 :: (m' ++ m')) := by
    unfold fernetEncrypt
    exact splitAtZero_append fun b hb => natEnc_pos hb
  rw [h] at h1
  rw [h2] at h1
  simp only [Option.some.injEq, Prod.mk.injEq] at h1
  have hk : k = k' := natEnc_inj h1.1.symm
  refine ⟨hk, ?_⟩
  have := fernetDecrypt_complete k m
  rw [h, hk, fernetDecrypt_complete] at this
  simpa using this.symm

end CredEnc

namespace CredEnc

theorem codeToSix_sixToCode : ∀ n, n < 64 → codeToSix (sixToCode n) = some n := by decide

theorem sixToCode_ne_61 : ∀ n, n < 64 → sixToCode n ≠ 61 := by decide

theorem codeToSix_sound {c n : Nat} (h : codeToSix c = some n) :
    n < 64 ∧ sixToCode n = c := by
  unfold codeToSix at h
  split_ifs at h with h1 h2 h3 h4 h5 <;>
    (injection h with h'; subst h'; unfold sixToCode; constructor)
  all_goals first
    | omega
    | (split_ifs <;> omega)

theorem b64_roundtrip : ∀ bs : List Nat, (∀ x ∈ bs, x < 256) →
    b64Decode (b64Encode bs) = some bs := by
  intro bs
  induction bs using b64Encode.induct with
  | case1 => intro h; rfl
  | case2 a =>
    intro h
    have ha : a < 256 := h a (by simp)
    simp only [b64Encode, b64Decode]
    rw [if_pos (by simp)]
    rw [codeToSix_sixToCode _ (by omega), codeToSix_sixToCode _ (by omega)]
    simp only
    rw [if_pos (by omega)]
    simp only [Option.some.injEq, List.cons.injEq, and_true]
    omega
  | case3 a b =>
    intro h
    have ha : a < 256 := h a (by simp)
    have hb : b < 256 := h b (by simp)
    simp only [b64Encode, b64Decode]
    rw [if_neg (by simp [sixToCode_ne_61 (b % 16 * 4) (by omega)])]
    rw [if_pos (by simp)]
    rw [codeToSix_sixToCode _ (by omega), codeToSix_sixToCode _ (by omega),
      codeToSix_sixToCode _ (by omega)]
    simp only
    rw [if_pos (by omega)]
    simp only [Option.some.injEq, List.cons.injEq, and_true]
    refine ⟨by omega, by omega⟩
  | case4 a b c rest ih =>
    intro h
    have ha : a < 256 := h a (by simp)
    have hb : b < 256 := h b (by simp)
    have hc : c < 256 := h c (by simp)
    simp only [b64Encode, b64Decode]
    rw [if_neg (by simp [sixToCode_ne_61 (c % 64) (by omega)])]
    rw [if_neg (by simp [sixToCode_ne_61 (c % 64) (by omega)])]
    rw [codeToSix_sixToCode _ (by omega), codeToSix_sixToCode _ (by omega),
      codeToSix_sixToCode _ (by omega), codeToSix_sixToCode _ (by omega)]
    simp only
    rw [ih fun x hx => h x (by simp [hx])]
    simp only [Option.some.injEq, List.cons.injEq, and_true]
    refine ⟨by omega, by omega, by omega⟩

theorem b64Decode_sound : ∀ (s : List Nat) {t : List Nat}, b64Decode s = some t →
    (∀ x ∈ t, x < 256) ∧ b64Encode t = s := by
  intro s
  induction s using b64Decode.induct with
  | case1 =>
    intro t h
    simp only [b64Decode, Option.some.injEq] at h
    subst h
    exact ⟨by simp, rfl⟩
  | case2 c1 c2 c3 c4 rest hcond a b hc2 hc1 hb16 =>
    intro t h
    simp only [Bool.and_eq_true, beq_iff_eq, List.isEmpty_iff] at hcond
    obtain ⟨⟨hrest, h3⟩, h4⟩ := hcond
    subst hrest; subst h3; subst h4
    simp only [b64Decode, List.isEmpty_nil, beq_self_eq_true, Bool.and_self,
      if_true, hc1, hc2] at h
    rw [if_pos hb16] at h
    simp only [Option.some.injEq] at h
    subst h
    obtain ⟨hal, hae⟩ := codeToSix_sound hc1
    obtain ⟨hbl, hbe⟩ := codeToSix_sound hc2
    refine ⟨by intro x hx; simp at hx; omega, ?_⟩
    simp only [b64Encode]
    rw [show (a * 4 + b / 16) / 4 = a by omega,
      show (a * 4 + b / 16) % 4 * 16 = b by omega, hae, hbe]
  | case3 c1 c2 c3 c4 rest hcond a b hc2 hc1 hb16 =>
    intro t h
    simp only [b64Decode, if_pos hcond, hc1, hc2, if_neg hb16] at h
    exact Option.noConfusion h
  | case4 c1 c2 c3 c4 rest hcond hnone =>
    intro t h
    simp only [b64Decode, if_pos hcond] at h
    cases hc1 : codeToSix c1 with
    | none => exact Option.noConfusion h
    | some a =>
      cases hc2 : codeToSix c2 with
      | none => exact Option.noConfusion h
      | some b => exact (hnone a b hc1 hc2).elim
  | case5 c1 c2 c3 c4 rest hcond1 hcond2 a b c hc3 hc2 hc1 hc4mod =>
    intro t h
    simp only [Bool.and_eq_true, beq_iff_eq, List.isEmpty_iff] at hcond2
    obtain ⟨hrest, h4⟩ := hcond2
    subst hrest; subst h4
    simp only [b64Decode, if_neg hcond1] at h
    rw [if_pos (by simp), hc1, hc2, hc3] at h
    simp only [if_pos hc4mod, Option.some.injEq] at h
    subst h
    obtain ⟨hal, hae⟩ := codeToSix_sound hc1
    obtain ⟨hbl, hbe⟩ := codeToSix_sound hc2
    obtain ⟨hcl, hce⟩ := codeToSix_sound hc3
    refine ⟨by intro x hx; simp at hx; rcases hx with rfl | rfl <;> omega, ?_⟩
    simp only [b64Encode]
    rw [show (a * 4 + b / 16) / 4 = a by omega,
      show (a * 4 + b / 16) % 4 * 16 + (b % 16 * 16 + c / 4) / 16 = b by omega,
      show (b % 16 * 16 + c / 4) % 16 * 4 = c by omega, hae, hbe, hce]
  | case6 c1 c2 c3 c4 rest hcond1 hcond2 a b c hc3 hc2 hc1 hc4mod =>
    intro t h
    simp only [b64Decode, if_neg hcond1, if_pos hcond2, hc1, hc2, hc3,
      if_neg hc4mod] at h
    exact Option.noConfusion h
  | case7 c1 c2 c3 c4 rest hcond1 hcond2 hnone =>
    intro t h
    simp only [b64Decode, if_neg hcond1, if_pos hcond2] at h
    cases hc1 : codeToSix c1 with
    | none => exact Option.noConfusion h
    | some a =>
      cases hc2 : codeToSix c2 with
      | none => exact Option.noConfusion h
      | some b =>
        cases hc3 : codeToSix c3 with
        | none => exact Option.noConfusion h
        | some c => exact (hnone a b c hc1 hc2 hc3).elim
  | case8 c1 c2 c3 c4 rest hcond1 hcond2 a b c d hc4 hc3 hc2 hc1 hrec ih =>
    intro t h
    simp only [b64Decode, if_neg hcond1, if_neg hcond2, hc1, hc2, hc3, hc4,
      hrec] at h
    exact Option.noConfusion h
  | case9 c1 c2 c3 c4 rest hcond1 hcond2 a b c d hc4 hc3 hc2 hc1 tail hrec ih =>
    intro t h
    simp only [b64Decode, if_neg hcond1, if_neg hcond2, hc1, hc2, hc3, hc4,
      hrec, Option.some.injEq] at h
    subst h
    obtain ⟨htail, henc⟩ := ih hrec
    obtain ⟨hal, hae⟩ := codeToSix_sound hc1
    obtain ⟨hbl, hbe⟩ := codeToSix_sound hc2
    obtain ⟨hcl, hce⟩ := codeToSix_sound hc3
    obtain ⟨hdl, hde⟩ := codeToSix_sound hc4
    constructor
    · intro x hx
      simp only [List.mem_cons] at hx
      rcases hx with rfl | rfl | rfl | hx
      · omega
      · omega
      · omega
      · exact htail x hx
    · simp only [b64Encode]
      rw [show (a * 4 + b / 16) / 4 = a by omega,
        show (a * 4 + b / 16) % 4 * 16 + (b % 16 * 16 + c / 4) / 16 = b by omega,
        show (b % 16 * 16 + c / 4) % 16 * 4 + (c % 4 * 64 + d) / 64 = c by omega,
        show (c % 4 * 64 + d) % 64 = d by omega, hae, hbe, hce, hde, henc]
  | case10 c1 c2 c3 c4 rest hcond1 hcond2 hnone =>
    intro t h
    simp only [b64Decode, if_neg hcond1, if_neg hcond2] at h
    cases hc1 : codeToSix c1 with
    | none => exact Option.noConfusion h
    | some a =>
      cases hc2 : codeToSix c2 with
      | none => exact Option.noConfusion h
      | some b =>
        cases hc3 : codeToSix c3 with
        | none => exact Option.noConfusion h
        | some c =>
          cases hc4 : codeToSix c4 with
          | none => exact Option.noConfusion h
          | some d => exact (hnone a b c d hc1 hc2 hc3 hc4).elim
  | case11 t h1 h2 =>
    intro u h
    exfalso
    rcases t with _ | ⟨c1, _ | ⟨c2, _ | ⟨c3, _ | ⟨c4, rest⟩⟩⟩⟩
    · exact h1 rfl
    · exact Option.noConfusion h
    · exact Option.noConfusion h
    · exact Option.noConfusion h
    · exact h2 c1 c2 c3 c4 rest rfl

end CredEnc

namespace CredEnc

theorem encNat_bytes_lt {n x : Nat} (h : x ∈ encNat n) : x < 256 := by
  unfold encNat at h
  rcases List.mem_append.mp h with h' | h'
  · exact natEnc_lt h'
  · simp at h'
    omega

theorem encStr_bytes_lt {s : PyStr} {x : Nat} (h : x ∈ encStr s) : x < 256 := by
  unfold encStr at h
  rcases List.mem_append.mp h with h' | h'
  · exact encNat_bytes_lt h'
  · obtain ⟨l, hl, hx⟩ := List.mem_flatten.mp h'
    obtain ⟨c, _, rfl⟩ := List.mem_map.mp hl
    exact encNat_bytes_lt hx

theorem dumps_bytes_lt {p : Payload} {x : Nat} (h : x ∈ dumps p) : x < 256 := by
  unfold dumps at h
  rcases List.mem_append.mp h with h' | h'
  · exact encNat_bytes_lt h'
  · obtain ⟨l, hl, hx⟩ := List.mem_flatten.mp h'
    obtain ⟨kv, _, rfl⟩ := List.mem_map.mp hl
    rcases List.mem_append.mp hx with h'' | h''
    · exact encStr_bytes_lt h''
    · exact encStr_bytes_lt h''

theorem fernet_bytes_lt {k : Nat} {msg : List Nat}
    (hmsg : ∀ x ∈ msg, x < 256) :
    ∀ x ∈ fernetEncrypt k msg, x < 256 := by
  intro x hx
  unfold fernetEncrypt at hx
  rcases List.mem_append.mp hx with h' | h'
  · exact natEnc_lt h'
  · rcases List.mem_cons.mp h' with rfl | h''
    · omega
    · rcases List.mem_append.mp h'' with h3 | h3
      · exact natEnc_lt h3
      · rcases List.mem_cons.mp h3 with rfl | h4
        · omega
        · rcases List.mem_append.mp h4 with h5 | h5
          · exact hmsg x h5
          · exact hmsg x h5

theorem decrypt_encrypt (key : Nat) (p : Payload) :
    decrypt key (encrypt key p) = .ok p := by
  unfold decrypt encrypt
  rw [b64_roundtrip _ (fernet_bytes_lt fun x hx => dumps_bytes_lt hx)]
  simp only [fernetDecrypt_complete, loads_dumps]

theorem decrypt_ok_genuine {key : Nat} {s : List Nat} {p : Payload}
    (h : decrypt key s = .ok p) : s = encrypt key p := by
  unfold decrypt at h
  cases hb : b64Decode s with
  | none => rw [hb] at h; simp at h
  | some token =>
    rw [hb] at h
    simp only at h
    cases hf : fernetDecrypt key token with
    | none => rw [hf] at h; simp at h
    | some plaintext =>
      rw [hf] at h
      simp only at h
      cases hl : loads plaintext with
      | none => rw [hl] at h; simp at h
      | some data =>
        rw [hl] at h
        simp only [Except.ok.injEq] at h
        subst h
        obtain ⟨_, henc⟩ := b64Decode_sound s hb
        rw [← henc, fernetDecrypt_sound hf, loads_sound hl]
        rfl

theorem decrypt_foreign {k k' : Nat} (p : Payload) (hne : k ≠ k') :
    decrypt k' (encrypt k p) = .error decryptError := by
  unfold decrypt encrypt
  rw [b64_roundtrip _ (fernet_bytes_lt fun x hx => dumps_bytes_lt hx)]
  simp only
  cases hf : fernetDecrypt k' (fernetEncrypt k (dumps p)) with
  | none => rfl
  | some m =>
    have := fernetDecrypt_sound hf
    exact absurd (fernetEncrypt_inj this).1 hne

end CredEnc

/-! ## Claim theorems -/

/-- C1 (counterexample): for the conversational query "hi", both RAG
routes attempt retrieval anyway (no conversational-query check), and
the retrieval service is invoked with `top_k = 10`, not `15`. -/
theorem C1_counterexample :
    AnswerEngineService.is_conversational_query "hi" = true
    ∧ RagApi.query_documents ⟨"hi", none⟩ [] =
        [RagApi.RagStep.retrieveCall "hi" 10,
         RagApi.RagStep.respond RagApi.noChunksAnswer]
    ∧ RagApi.query_documents_stream ⟨"hi", none⟩ [] =
        [RagApi.RagStep.retrieveCall "hi" 10,
         RagApi.RagStep.emitFrame RagApi.noChunksToken,
         RagApi.RagStep.emitFrame "[DONE]"]
    ∧ (10 : Nat) ≠ 15 := by
  refine ⟨by decide, ?_, ?_, by decide⟩
  · simp [RagApi.query_documents]
  · simp [RagApi.query_documents_stream]

/-- C1 (amended): for every request (conversational or not) and every
retrieval result, both RAG query routes attempt retrieval
unconditionally — their first step is always the retrieval call — and
invoke the retrieval service with `top_k = 10`. -/
theorem C1_routes_retrieve_top10 (request : RagApi.QueryRequest)
    (retrieved : List RagApi.RouteChunk) :
    (RagApi.query_documents request retrieved).head? =
        some (RagApi.RagStep.retrieveCall request.query 10)
    ∧ (RagApi.query_documents_stream request retrieved).head? =
        some (RagApi.RagStep.retrieveCall request.query 10) :=
  ⟨rfl, rfl⟩

/-- C2: whenever the document lookup succeeds (the document exists and
belongs to the caller's tenant), `get_document_stats` nevertheless
answers HTTP 500, because the chunk-count expression references the
global name `Chunk`, which is not imported in the module. -/
theorem C2_stats_route_always_500 (docs : List DocumentsApi.DocumentRow)
    (chunks : List DocumentsApi.ChunkRow) (document_id tenant_id : Int)
    (d : DocumentsApi.DocumentRow)
    (hfind : docs.find?
        (fun d => d.id == document_id && d.tenant_id == tenant_id) = some d) :
    DocumentsApi.get_document_stats docs chunks document_id tenant_id =
      .httpError 500 "Failed to get document stats" := by
  unfold DocumentsApi.get_document_stats
  rw [hfind]
  rfl

/-- C2 (witness): a concrete document (id 1, tenant 1) that exists and
is owned by the caller still gets a 500 from the stats route. -/
theorem C2_stats_route_always_500_witness :
    DocumentsApi.get_document_stats
      [⟨1, 1, "report.pdf", "completed", 1024, none⟩] [] 1 1 =
      .httpError 500 "Failed to get document stats" :=
  C2_stats_route_always_500 _ _ _ _
    ⟨1, 1, "report.pdf", "completed", 1024, none⟩ (by decide)

/-- C5: the retrieval tail drops every candidate whose merged score is
below the 0.3 threshold (no returned candidate scores below it, and a
sub-threshold input candidate never appears in the output), and the
returned candidates are in descending order of merged score. -/
theorem C5_threshold_filter_and_ordering
    (candidates : List RetrieverService.Cand) (top_k : Nat) :
    (∀ c ∈ RetrieverService.retrieve_tail candidates top_k,
        RetrieverService.MIN_SIMILARITY_THRESHOLD ≤ c.2)
    ∧ (∀ c ∈ candidates,
        c.2 < RetrieverService.MIN_SIMILARITY_THRESHOLD →
        c ∉ RetrieverService.retrieve_tail candidates top_k)
    ∧ (RetrieverService.retrieve_tail candidates top_k).Pairwise
        RetrieverService.scoreGE := by
  have hmem : ∀ c ∈ RetrieverService.retrieve_tail candidates top_k,
      RetrieverService.MIN_SIMILARITY_THRESHOLD ≤ c.2 := by
    intro c hc
    unfold RetrieverService.retrieve_tail at hc
    have := List.mem_of_mem_take hc
    exact of_decide_eq_true (List.mem_filter.mp this).2
  refine ⟨hmem, ?_, ?_⟩
  · intro c _ hlt hmem'
    exact absurd (hmem c hmem') (not_le.mpr hlt)
  · unfold RetrieverService.retrieve_tail
    exact ((RetrieverService.pairwise_sortDesc candidates).sublist
      (List.filter_sublist _)).sublist (List.take_sublist _ _)

/-- C5 (witness): with merged scores 9/10, 1/2, 1/5 the candidate
scoring 1/5 (below 0.3) never appears in the results. -/
theorem C5_threshold_filter_and_ordering_witness :
    (3, (1 : ℚ)/5) ∉
      RetrieverService.retrieve_tail [(1, 9/10), (2, 1/2), (3, 1/5)] 15 :=
  (C5_threshold_filter_and_ordering [(1, 9/10), (2, 1/2), (3, 1/5)] 15).2.1
    (3, 1/5) (by simp) (by norm_num [RetrieverService.MIN_SIMILARITY_THRESHOLD])

/-- C6: the role gate maps owner/admin/member/viewer to levels 4/3/2/1
and any unrecognized role string to 0, fails with Forbidden exactly when
the level of the principal is strictly below the required level, and
otherwise returns the principal unchanged. -/
theorem C6_role_gate :
    (Security.roleLevel "owner" = 4 ∧ Security.roleLevel "admin" = 3
      ∧ Security.roleLevel "member" = 2 ∧ Security.roleLevel "viewer" = 1)
    ∧ (∀ r : String, r ≠ "owner" → r ≠ "admin" → r ≠ "member" →
        r ≠ "viewer" → Security.roleLevel r = 0)
    ∧ ∀ (required : String) (u : Security.Principal),
        (Security.roleLevel u.role < Security.roleLevel required →
          Security.require_role required u = .error
            ⟨403, "Insufficient permissions. Required role: "
              ++ required ++ " or higher"⟩)
        ∧ (¬ Security.roleLevel u.role < Security.roleLevel required →
          Security.require_role required u = .ok u) := by
  refine ⟨⟨by decide, by decide, by decide, by decide⟩, ?_, ?_⟩
  · intro r h1 h2 h3 h4
    have e1 : (("owner" : String) == r) = false :=
      beq_eq_false_iff_ne.mpr (Ne.symm h1)
    have e2 : (("admin" : String) == r) = false :=
      beq_eq_false_iff_ne.mpr (Ne.symm h2)
    have e3 : (("member" : String) == r) = false :=
      beq_eq_false_iff_ne.mpr (Ne.symm h3)
    have e4 : (("viewer" : String) == r) = false :=
      beq_eq_false_iff_ne.mpr (Ne.symm h4)
    unfold Security.roleLevel Security.role_hierarchy
    simp [List.find?, e1, e2, e3, e4]
  · intro required u
    constructor
    · intro h
      unfold Security.require_role
      rw [if_pos h]
    · intro h
      unfold Security.require_role
      rw [if_neg h]

/-- C6 (witness): the unrecognized role "editor" has level 0; a viewer
fails a member-required gate with the Forbidden message; an admin passes
a member-required gate unchanged. -/
theorem C6_role_gate_witness :
    Security.roleLevel "editor" = 0
    ∧ Security.require_role "member" ⟨1, .jint 1, "v@example.com", "viewer"⟩
        = .error ⟨403, "Insufficient permissions. Required role: "
            ++ "member" ++ " or higher"⟩
    ∧ Security.require_role "member" ⟨2, .jint 1, "a@example.com", "admin"⟩
        = .ok ⟨2, .jint 1, "a@example.com", "admin"⟩ :=
  ⟨C6_role_gate.2.1 "editor" (by decide) (by decide) (by decide) (by decide),
   (C6_role_gate.2.2 "member" ⟨1, .jint 1, "v@example.com", "viewer"⟩).1
     (by decide),
   (C6_role_gate.2.2 "member" ⟨2, .jint 1, "a@example.com", "admin"⟩).2
     (by decide)⟩

/-- C9: the tenant gate rejects with Forbidden exactly the principals
whose `tenant_id` claim is falsy — in particular `0`, the empty string
and the absent claim (`None`) are all rejected, `0` exactly like the
missing claim — and passes other principals through unchanged. -/
theorem C9_tenant_gate :
    (∀ u : Security.Principal, Security.falsy u.tenant_id = true →
        Security.require_tenant_access u =
          .error ⟨403, "No tenant context available"⟩)
    ∧ (∀ u : Security.Principal, Security.falsy u.tenant_id = false →
        Security.require_tenant_access u = .ok u)
    ∧ Security.falsy (.jint 0) = true
    ∧ Security.falsy (.jstr "") = true
    ∧ Security.falsy .null = true
    ∧ ∀ (uid : Int) (em rl : String),
        Security.require_tenant_access ⟨uid, .jint 0, em, rl⟩ =
          Security.require_tenant_access ⟨uid, .null, em, rl⟩ := by
  refine ⟨?_, ?_, by decide, by decide, by decide, ?_⟩
  · intro u h
    unfold Security.require_tenant_access
    rw [h]
    rfl
  · intro u h
    unfold Security.require_tenant_access
    rw [h]
    rfl
  · intro uid em rl
    rfl

/-- C9 (witness): a decoded token carrying `tenant_id = 0` is rejected
with Forbidden even though the claim is present. -/
theorem C9_tenant_gate_witness :
    Security.require_tenant_access ⟨5, .jint 0, "u@example.com", "member"⟩
      = .error ⟨403, "No tenant context available"⟩ :=
  C9_tenant_gate.1 ⟨5, .jint 0, "u@example.com", "member"⟩ (by decide)

/-- C10: for every non-empty score list the BM25 normalization divisor
is the maximum raw score when that maximum is positive and 1 otherwise
(never zero), and when every raw score is 0 every normalized score is
exactly 0. -/
theorem C10_bm25_division_safe (scores : List ℚ) (hne : scores ≠ []) :
    RetrieverService.bm25_divisor scores ≠ 0
    ∧ (0 < RetrieverService.pyMax scores →
        RetrieverService.bm25_divisor scores = RetrieverService.pyMax scores)
    ∧ (¬ 0 < RetrieverService.pyMax scores →
        RetrieverService.bm25_divisor scores = 1)
    ∧ ((∀ x ∈ scores, x = 0) →
        ∀ y ∈ RetrieverService.bm25_normalize scores, y = 0) := by
  refine ⟨?_, ?_, ?_, ?_⟩
  · unfold RetrieverService.bm25_divisor
    split
    · exact ne_of_gt ‹_›
    · exact one_ne_zero
  · intro h
    unfold RetrieverService.bm25_divisor
    rw [if_pos h]
  · intro h
    unfold RetrieverService.bm25_divisor
    rw [if_neg h]
  · intro hz y hy
    unfold RetrieverService.bm25_normalize at hy
    obtain ⟨x, hx, rfl⟩ := List.mem_map.mp hy
    rw [hz x hx, zero_div]

/-- C10 (witness): for the all-zero score list `[0, 0]` the divisor is 1
(nonzero) and both normalized scores are 0. -/
theorem C10_bm25_division_safe_witness :
    RetrieverService.bm25_divisor [(0 : ℚ), 0] ≠ 0
    ∧ RetrieverService.bm25_divisor [(0 : ℚ), 0] = 1 :=
  ⟨(C10_bm25_division_safe [0, 0] (by simp)).1,
   (C10_bm25_division_safe [0, 0] (by simp)).2.2.1
     (by norm_num [RetrieverService.pyMax])⟩

/-- C4: the hybrid merge assigns every returned chunk id the score
`alpha·vector_score + (1−alpha)·bm25_score` with `alpha = 0.7`, a
missing side defaulting to 0 (scores are looked up in the per-side
Python dict built from the result lists). -/
theorem C4_hybrid_merge_formula :
    RetrieverService.HYBRID_ALPHA = 7/10
    ∧ ∀ (vector_results bm25_results : List RetrieverService.Cand)
        (i : Nat) (s : ℚ),
        (i, s) ∈ RetrieverService.hybrid_merge vector_results bm25_results
            RetrieverService.HYBRID_ALPHA →
        s = 7/10 * (RetrieverService.dictScore vector_results i).getD 0
          + 3/10 * (RetrieverService.dictScore bm25_results i).getD 0 := by
  refine ⟨rfl, ?_⟩
  intro vector_results bm25_results i s hmem
  unfold RetrieverService.hybrid_merge at hmem
  rw [RetrieverService.mem_sortDesc] at hmem
  obtain ⟨j, _, hj⟩ := List.mem_map.mp hmem
  rw [Prod.mk.injEq] at hj
  obtain ⟨rfl, rfl⟩ := hj
  unfold RetrieverService.HYBRID_ALPHA
  norm_num

/-- C4 (witness): vector 0.8 with BM25 0.4 merges to 0.68 exactly, and
a vector-only 0.6 merges to 0.42 (missing BM25 side treated as 0). -/
theorem C4_hybrid_merge_formula_witness :
    ((17 : ℚ)/25 =
      7/10 * (RetrieverService.dictScore [(1, 4/5)] 1).getD 0
        + 3/10 * (RetrieverService.dictScore [(1, 2/5)] 1).getD 0)
    ∧ ((21 : ℚ)/50 =
      7/10 * (RetrieverService.dictScore [(1, 3/5)] 1).getD 0
        + 3/10 * (RetrieverService.dictScore ([] : List RetrieverService.Cand) 1).getD 0) := by
  constructor
  · refine C4_hybrid_merge_formula.2 [(1, 4/5)] [(1, 2/5)] 1 (17/25) ?_
    norm_num [RetrieverService.hybrid_merge, RetrieverService.dedupIds,
      RetrieverService.dictScore, RetrieverService.sortDesc,
      RetrieverService.insertDesc, RetrieverService.HYBRID_ALPHA]
  · refine C4_hybrid_merge_formula.2 [(1, 3/5)] [] 1 (21/50) ?_
    norm_num [RetrieverService.hybrid_merge, RetrieverService.dedupIds,
      RetrieverService.dictScore, RetrieverService.sortDesc,
      RetrieverService.insertDesc, RetrieverService.HYBRID_ALPHA]

namespace AnswerEngineService

theorem flatten_singleton_map (l : List Char) :
    ((l.map fun c => String.mk [c]).map String.data).flatten = l := by
  induction l with
  | nil => rfl
  | cons c cs ih =>
    simp only [List.map_cons, List.flatten_cons]
    rw [ih]
    rfl

theorem charPieces_flatten (s : String) :
    ((charPieces s).map String.data).flatten = s.data :=
  flatten_singleton_map s.data

theorem charPieces_len {s p : String} (h : p ∈ charPieces s) :
    p.length = 1 := by
  unfold charPieces at h
  obtain ⟨c, _, rfl⟩ := List.mem_map.mp h
  rfl

end AnswerEngineService

/-- C3: `generate_answer` reaches the LLM only when the retrieved
chunks pass the relevance check — whose success is exactly "the mean of
the top-3 scores is ≥ 0.4" — and when the mean is below 0.4 and the
query is neither conversational nor 3 words or fewer, the fixed
fixed could-not-find-relevant-information message is returned (so the LLM is
never invoked). -/
theorem C3_relevance_gating (query : String)
    (chunks : List AnswerEngineService.RChunk) :
    (AnswerEngineService.chunks_are_relevant chunks (2/5) = true ↔
      (chunks ≠ [] ∧ 2/5 ≤
        ((chunks.take 3).map fun c => c.score.getD 0).sum
          / ((((chunks.take 3).map fun c => c.score.getD 0).length : ℚ))))
    ∧ (∀ ctx, AnswerEngineService.generate_answer query chunks = .llm ctx →
        AnswerEngineService.chunks_are_relevant chunks (2/5) = true)
    ∧ (AnswerEngineService.is_conversational_query query = false →
        3 < (splitWsAux (stripWs query.data) []).length →
        AnswerEngineService.chunks_are_relevant chunks (2/5) = false →
        AnswerEngineService.generate_answer query chunks =
          .fallback AnswerEngineService.noInfoMessage) := by
  refine ⟨?_, ?_, ?_⟩
  · cases chunks with
    | nil => simp [AnswerEngineService.chunks_are_relevant]
    | cons a l =>
      simp [AnswerEngineService.chunks_are_relevant, ge_iff_le]
  · intro ctx h
    unfold AnswerEngineService.generate_answer at h
    split at h
    · exact absurd h (by simp)
    · split at h
      · split at h <;> exact absurd h (by simp)
      · rename_i hcond
        simp only [Bool.or_eq_true, Bool.not_eq_true', not_or,
          Bool.not_eq_true, Bool.not_eq_false] at hcond
        exact hcond.2
  · intro hconv hw hrel
    unfold AnswerEngineService.generate_answer
    rw [hconv, hrel]
    simp only [Bool.false_eq_true, if_false, Bool.not_false, Bool.or_true,
      if_true, Bool.false_or]
    rw [decide_eq_false (by omega)]
    simp

/-- C3 (witness): a five-word non-conversational query with no chunks
gets the fixed fallback message. -/
theorem C3_relevance_gating_witness :
    AnswerEngineService.generate_answer
        "summarize the quarterly revenue figures" [] =
      .fallback AnswerEngineService.noInfoMessage :=
  (C3_relevance_gating "summarize the quarterly revenue figures" []).2.2
    (by decide) (by decide) (by rfl)

/-- C8 (counterexample): in the non-conversational fallback case the
streaming generator yields the canned message as one single piece — not
one character at a time — and that piece differs from the batch
fallback string (it lacks the trailing "Please try uploading…"
sentence). -/
theorem C8_counterexample :
    AnswerEngineService.generate_answer
        "summarize the quarterly revenue figures" [] =
      .fallback AnswerEngineService.noInfoMessage
    ∧ AnswerEngineService.generate_answer_stream
        "summarize the quarterly revenue figures" [] =
      .yields [AnswerEngineService.noInfoMessageStream]
    ∧ AnswerEngineService.noInfoMessageStream.length ≠ 1
    ∧ AnswerEngineService.noInfoMessageStream ≠
        AnswerEngineService.noInfoMessage := by
  exact ⟨by decide, by decide, by decide, by decide⟩

/-- C8 (amended): the streaming generator applies gating identical to
the batch generator (it forwards the LLM stream exactly when the batch
path invokes the LLM, on the same formatted context); in every
conversational case the canned reply is yielded one character at a time
and the pieces concatenate to the batch canned string; in the
non-conversational fallback case it yields, as a single piece, the
shorter streaming fallback message. -/
theorem C8_stream_gating_parity (query : String)
    (chunks : List AnswerEngineService.RChunk) :
    (∀ ctx, AnswerEngineService.generate_answer_stream query chunks =
        .llmStream ctx ↔
      AnswerEngineService.generate_answer query chunks = .llm ctx)
    ∧ (∀ r, AnswerEngineService.generate_answer query chunks = .canned r →
        AnswerEngineService.generate_answer_stream query chunks =
          .yields (AnswerEngineService.charPieces r)
        ∧ ((AnswerEngineService.charPieces r).map String.data).flatten
            = r.data
        ∧ ∀ p ∈ AnswerEngineService.charPieces r, p.length = 1)
    ∧ (AnswerEngineService.generate_answer query chunks =
          .fallback AnswerEngineService.noInfoMessage →
        AnswerEngineService.generate_answer_stream query chunks =
          .yields [AnswerEngineService.noInfoMessageStream]) := by
  by_cases h1 : AnswerEngineService.is_conversational_query query = true
  · refine ⟨?_, ?_, ?_⟩
    · intro ctx
      simp [AnswerEngineService.generate_answer,
        AnswerEngineService.generate_answer_stream, h1]
    · intro r hr
      simp only [AnswerEngineService.generate_answer, h1, if_true,
        AnswerEngineService.AnswerOutcome.canned.injEq] at hr
      subst hr
      exact ⟨by simp [AnswerEngineService.generate_answer_stream, h1],
        AnswerEngineService.charPieces_flatten _,
        fun p hp => AnswerEngineService.charPieces_len hp⟩
    · intro hr
      simp [AnswerEngineService.generate_answer, h1] at hr
  · rw [Bool.not_eq_true] at h1
    by_cases h2 : (chunks.isEmpty
        || !AnswerEngineService.chunks_are_relevant chunks (2/5)) = true
    · by_cases h3 :
          decide ((splitWsAux (stripWs query.data) []).length ≤ 3) = true
      · refine ⟨?_, ?_, ?_⟩
        · intro ctx
          simp [AnswerEngineService.generate_answer,
            AnswerEngineService.generate_answer_stream, h1, h2, h3]
        · intro r hr
          simp only [AnswerEngineService.generate_answer, h1, h2, h3,
            Bool.false_eq_true, if_false, if_true, Bool.false_or,
            AnswerEngineService.AnswerOutcome.canned.injEq] at hr
          subst hr
          refine ⟨?_, AnswerEngineService.charPieces_flatten _,
            fun p hp => AnswerEngineService.charPieces_len hp⟩
          simp [AnswerEngineService.generate_answer_stream, h1, h2, h3]
        · intro hr
          simp [AnswerEngineService.generate_answer, h1, h2, h3] at hr
      · rw [Bool.not_eq_true] at h3
        refine ⟨?_, ?_, ?_⟩
        · intro ctx
          simp [AnswerEngineService.generate_answer,
            AnswerEngineService.generate_answer_stream, h1, h2, h3]
        · intro r hr
          simp [AnswerEngineService.generate_answer, h1, h2, h3] at hr
        · intro hr
          simp [AnswerEngineService.generate_answer_stream, h1, h2, h3]
    · rw [Bool.not_eq_true] at h2
      refine ⟨?_, ?_, ?_⟩
      · intro ctx
        simp [AnswerEngineService.generate_answer,
          AnswerEngineService.generate_answer_stream, h1, h2]
      · intro r hr
        simp [AnswerEngineService.generate_answer, h1, h2] at hr
      · intro hr
        simp [AnswerEngineService.generate_answer, h1, h2] at hr

/-- C8 (witness): for the conversational query "hi" the streaming
generator yields the greeting reply one character at a time, and the
pieces concatenate back to the greeting string. -/
theorem C8_stream_gating_parity_witness :
    AnswerEngineService.generate_answer_stream "hi" [] =
      AnswerEngineService.StreamOutcome.yields
        (AnswerEngineService.charPieces AnswerEngineService.greetResponse)
    ∧ ((AnswerEngineService.charPieces
        AnswerEngineService.greetResponse).map String.data).flatten
      = AnswerEngineService.greetResponse.data :=
  have h := (C8_stream_gating_parity "hi" []).2.1
    AnswerEngineService.greetResponse (by decide)
  ⟨h.1, h.2.1⟩

/-- C7: the credential-encryption facility round-trips every
serializable payload (`decrypt (encrypt payload) = payload`); a
decryption that returns a value certifies that its input was the
encryption of that value under the same key, so corrupted ciphertexts
(not in the encryption image) and foreign ciphertexts (produced under a
different key) fail with a decryption error rather than returning
anything. -/
theorem C7_encryption_roundtrip :
    (∀ (key : Nat) (payload : CredEnc.Payload),
        CredEnc.decrypt key (CredEnc.encrypt key payload) = .ok payload)
    ∧ (∀ (key : Nat) (s : List Nat) (payload : CredEnc.Payload),
        CredEnc.decrypt key s = .ok payload → s = CredEnc.encrypt key payload)
    ∧ (∀ (k k' : Nat) (payload : CredEnc.Payload), k ≠ k' →
        CredEnc.decrypt k' (CredEnc.encrypt k payload) =
          .error CredEnc.decryptError) :=
  ⟨CredEnc.decrypt_encrypt,
   fun _ _ _ => CredEnc.decrypt_ok_genuine,
   fun _ _ payload h => CredEnc.decrypt_foreign payload h⟩

/-- C7 (witness): a concrete payload round-trips under key 1, and its
ciphertext fails to decrypt under the foreign key 2. -/
theorem C7_encryption_roundtrip_witness :
    CredEnc.decrypt 1 (CredEnc.encrypt 1 [([104], [105])]) =
      .ok [([104], [105])]
    ∧ CredEnc.decrypt 2 (CredEnc.encrypt 1 [([104], [105])]) =
      .error CredEnc.decryptError :=
  ⟨C7_encryption_roundtrip.1 1 [([104], [105])],
   C7_encryption_roundtrip.2.2 1 2 [([104], [105])] (by decide)⟩
